import Mathlib

/-!
Verification development for the `forwardmebot` relay manager (`main.go`).

The embedding models the SQLite `bots` table at the parsed-field level:
the `blocked_users` column (a comma-joined list of decimal int64 ids, `""`
when empty) is modelled as the list of ids it encodes, and the
`appeal_counts` column (a JSON object mapping decimal-id strings to ints,
`""` when absent) is modelled as an association list from id to count.
The program only ever writes strings produced by `strconv.FormatInt` /
`json.Marshal`, so on program-written states this level is exact; the
`"" ↔ empty` special cases that drive control flow in the Go code are
kept (`dbGet db t = none` plays the role of `sql.ErrNoRows`, and an empty
`blockedUsers` list the role of the `blockedUsers == ""` check).
SQL semantics are kept: `UPDATE ... WHERE token` rewrites matching rows
and silently affects nothing when the row is missing; `INSERT` appends;
`DELETE` removes.  Store writes are assumed to succeed (the claims about
read failures are handled through `ScanResult.dbError`).
-/

namespace ForwardMe

/-- One row of the `bots` table, fields at parsed level. -/
structure BotRecord where
  creatorId : Int
  blockedUsers : List Int
  appealCounts : List (Int × Nat)
deriving DecidableEq, Repr

/-- The `bots` table: association list keyed by token (the primary key). -/
abbrev DBState := List (String × BotRecord)

/-- `SELECT ... WHERE token = t`: the first row with this token, if any. -/
def dbGet : DBState → String → Option BotRecord
  | [], _ => none
  | (t', r) :: rest, t => if t' = t then some r else dbGet rest t

/-- `UPDATE bots SET ... WHERE token = t`: rewrite every matching row;
updates nothing (without error) when the row is missing. -/
def dbSet : DBState → String → BotRecord → DBState
  | [], _, _ => []
  | (t', r') :: rest, t, r =>
      if t' = t then (t, r) :: dbSet rest t r else (t', r') :: dbSet rest t r

/-- `DELETE FROM bots WHERE token = t`. -/
def dbDelete : DBState → String → DBState
  | [], _ => []
  | (t', r) :: rest, t =>
      if t' = t then dbDelete rest t else (t', r) :: dbDelete rest t

/-- Lookup in the parsed `appeal_counts` map; a missing key reads as 0,
like a Go map of ints. -/
def countsGet : List (Int × Nat) → Int → Nat
  | [], _ => 0
  | (u', c) :: rest, u => if u' = u then c else countsGet rest u

/-- `appealCounts[uid]++` on the parsed map: bump the entry, inserting it
at 1 when absent. -/
def countsIncr : List (Int × Nat) → Int → List (Int × Nat)
  | [], u => [(u, 1)]
  | (u', c) :: rest, u =>
      if u' = u then (u', c + 1) :: rest else (u', c) :: countsIncr rest u

/-- `delete(appealCounts, uid)` on the parsed map. -/
def countsDel : List (Int × Nat) → Int → List (Int × Nat)
  | [], _ => []
  | (u', c) :: rest, u =>
      if u' = u then countsDel rest u else (u', c) :: countsDel rest u

/-- The loop in `unblockUser` that keeps every id different from `u`
(parse failures cannot occur at parsed level). -/
def removeId : List Int → Int → List Int
  | [], _ => []
  | x :: rest, u => if x = u then removeId rest u else x :: removeId rest u

/-- Outcome of `db.QueryRow(...).Scan(...)` as the Go code distinguishes
it: a row, `sql.ErrNoRows`, or any other error. -/
inductive ScanResult where
  | found (r : BotRecord)
  | noRows
  | dbError
deriving DecidableEq

/-- A scan against the modelled table (which itself cannot fail; the
`dbError` case is injected where a claim needs it). -/
def scan (db : DBState) (t : String) : ScanResult :=
  match dbGet db t with
  | some r => ScanResult.found r
  | none => ScanResult.noRows

/-- `getAppealCount`, branching on the scan outcome exactly as the Go
code does: a non-`ErrNoRows` error is logged and reads as 0; `ErrNoRows`
leaves the column string empty, which also reads as 0. -/
def getAppealCountScan : ScanResult → Int → Nat
  | ScanResult.dbError, _ => 0
  | ScanResult.noRows, _ => 0
  | ScanResult.found r, u => countsGet r.appealCounts u

/-- `isUserBlocked`, branching on the scan outcome exactly as the Go
code does: any read failure reads as "not blocked". -/
def isUserBlockedScan : ScanResult → Int → Bool
  | ScanResult.dbError, _ => false
  | ScanResult.noRows, _ => false
  | ScanResult.found r, u => decide (u ∈ r.blockedUsers)

/-- `getAppealCount(token, userID)` against the table. -/
def getAppealCount (db : DBState) (t : String) (u : Int) : Nat :=
  getAppealCountScan (scan db t) u

/-- `isUserBlocked(token, userID)` against the table. -/
def isUserBlocked (db : DBState) (t : String) (u : Int) : Bool :=
  isUserBlockedScan (scan db t) u

/-- `blockUser`: read `blocked_users`; if the id is already present,
return early; otherwise append it and write the row back.  When the row
is missing the trailing `UPDATE` matches nothing and the table is
unchanged. -/
def blockUser (db : DBState) (t : String) (u : Int) : DBState :=
  match dbGet db t with
  | none => db
  | some r =>
      if u ∈ r.blockedUsers then db
      else dbSet db t { r with blockedUsers := r.blockedUsers ++ [u] }

/-- `unblockUser`: an empty `blocked_users` string returns early (without
touching the appeal counts); otherwise the id is filtered out and written
back, then `appeal_counts` is re-read and the id's entry deleted, exactly
the two-`UPDATE` sequence of the Go code. -/
def unblockUser (db : DBState) (t : String) (u : Int) : DBState :=
  match dbGet db t with
  | none => db
  | some r =>
      if r.blockedUsers = [] then db
      else
        let db1 := dbSet db t { r with blockedUsers := removeId r.blockedUsers u }
        match dbGet db1 t with
        | none => db1
        | some r1 => dbSet db1 t { r1 with appealCounts := countsDel r1.appealCounts u }

/-- `incrementAppealCount`: read the counts map, bump the entry, write it
back.  When the row is missing the `UPDATE` matches nothing. -/
def incrementAppealCount (db : DBState) (t : String) (u : Int) : DBState :=
  match dbGet db t with
  | none => db
  | some r => dbSet db t { r with appealCounts := countsIncr r.appealCounts u }

/-- The persisted effect of `DeleteBot`: `DELETE FROM bots WHERE token`. -/
def deleteBotDb (db : DBState) (t : String) : DBState :=
  dbDelete db t

/-- The persisted effect of `AddBot`: insert a fresh row unless one with
this token already exists (the existence check before the `INSERT`). -/
def addBotDb (db : DBState) (t : String) (c : Int) : DBState :=
  match dbGet db t with
  | some _ => db
  | none => db ++ [(t, ⟨c, [], []⟩)]

/-- `strconv.ParseInt(s, 10, 64)` without the sign character: all-digit
accumulation, failing on any non-digit. -/
def parseDigitsAux : List Char → Nat → Option Nat
  | [], acc => some acc
  | c :: rest, acc =>
      if c.isDigit then parseDigitsAux rest (acc * 10 + (c.toNat - 48)) else none

/-- `strconv.ParseInt(s, 10, 64)`: optional sign, at least one digit, and
the int64 range check (overflow is an error in Go). -/
def parseInt64 (s : String) : Option Int :=
  match s.toList with
  | [] => none
  | c :: rest =>
      let signed : Bool × List Char :=
        if c = '-' then (true, rest)
        else if c = '+' then (false, rest)
        else (false, c :: rest)
      match signed.2 with
      | [] => none
      | ds =>
          match parseDigitsAux ds 0 with
          | none => none
          | some n =>
              let v : Int := if signed.1 then -(n : Int) else (n : Int)
              if -(2 ^ 63) ≤ v ∧ v ≤ 2 ^ 63 - 1 then some v else none

/-- The `ForwardFrom` metadata carried by a replied-to message. -/
structure MsgRef where
  forwardFrom : Option Int
deriving DecidableEq, Repr

/-- An incoming Telegram message, with the fields the router reads.
`isCmd`, `cmd` and `cmdArgs` stand for `IsCommand()`, `Command()` and
`CommandArguments()`, which the bot library derives from the message
entities. -/
structure Message where
  fromId : Int
  chatId : Int
  messageId : Int
  userName : String
  firstName : String
  lastName : String
  text : String
  isCmd : Bool
  cmd : String
  cmdArgs : String
  replyTo : Option MsgRef
deriving DecidableEq, Repr

/-- A button-press callback query. -/
structure CallbackQ where
  cbId : String
  data : String
deriving DecidableEq, Repr

/-- The outward effects a handler can produce: a plain text send, a send
with an inline keyboard (buttons carry their callback data), a message
forward, and a callback acknowledgement. -/
inductive Eff where
  | send (chatId : Int) (text : String)
  | sendWithButtons (chatId : Int) (text : String) (buttons : List String)
  | forward (toChat : Int) (fromChat : Int) (msgId : Int)
  | ackCallback (cbId : String)
deriving DecidableEq, Repr

def appealDataTag : String := "appeal_"

def banDataTag : String := "ban_"

def unbanDataTag : String := "unban_"

def appealCapText : String := "你的申诉次数已达上限，已被永久封禁。"

def appealPromptText : String := "请在此输入你的申诉信息："

def permBanIncomingText : String := "你已被永久封禁，无法发送消息。"

def banIncomingText : String := "你已被封禁，无法发送消息。"

def noBansText : String := "当前没有封禁用户"

def banArgPromptText : String := "请提供要封禁的 Telegram ID，例如：/ban 123456"

def unbanArgPromptText : String := "请提供要解封的 Telegram ID，例如：/unban 123456"

def invalidIdText : String := "无效的 Telegram ID"

def commaText : String := ","

def appealForwardText (uid : Int) (t : String) : String :=
  "用户 " ++ toString uid ++ " 发起申诉: " ++ t

def banDoneText (uid : Int) : String :=
  "用户ID: " ++ toString uid ++ " 已被封禁"

def unbanDoneText (uid : Int) : String :=
  "用户ID: " ++ toString uid ++ " 已被解封"

def unbanCbDoneText (uid : Int) : String :=
  "用户ID: " ++ toString uid ++ " 已被解禁"

def banListText (l : List Int) : String :=
  "封禁列表: " ++ String.intercalate commaText (l.map toString)

/-- The display-name computation at the top of the `/start` branch. -/
def displayName (m : Message) : String :=
  let n1 := if m.userName = "" then m.firstName ++ " " ++ m.lastName else m.userName
  if n1 = " " then m.firstName else n1

def startNoticeText (name : String) (uid : Int) : String :=
  "用户 " ++ name ++ " (ID: " ++ toString uid ++ ") 发起了 /start 命令。\n\n选择操作:"

/-- `handleBotCommands`: the `/start`, `/getbans`, `/ban` and `/unban`
branches, returning the updated table plus the produced sends.  Commands
outside the switch fall through with no effect. -/
def handleBotCommands (db : DBState) (token : String) (creatorID : Int)
    (m : Message) : DBState × List Eff :=
  if m.cmd = "start" then
    (db, [Eff.sendWithButtons creatorID (startNoticeText (displayName m) m.fromId)
            [banDataTag ++ toString m.fromId, unbanDataTag ++ toString m.fromId]])
  else if m.cmd = "getbans" then
    match dbGet db token with
    | none => (db, [Eff.send creatorID noBansText])
    | some r =>
        if r.blockedUsers = [] then (db, [Eff.send creatorID noBansText])
        else (db, [Eff.send creatorID (banListText r.blockedUsers)])
  else if m.cmd = "ban" then
    if m.cmdArgs = "" then (db, [Eff.send creatorID banArgPromptText])
    else
      match parseInt64 m.cmdArgs with
      | none => (db, [Eff.send creatorID invalidIdText])
      | some uid => (blockUser db token uid, [Eff.send creatorID (banDoneText uid)])
  else if m.cmd = "unban" then
    if m.cmdArgs = "" then (db, [Eff.send creatorID unbanArgPromptText])
    else
      match parseInt64 m.cmdArgs with
      | none => (db, [Eff.send creatorID invalidIdText])
      | some uid => (unblockUser db token uid, [Eff.send creatorID (unbanDoneText uid)])
  else (db, [])

/-- `handleReplyMessage`: deliver the operator's reply text to the id in
the replied-to message's `ForwardFrom` metadata; with no such metadata,
only a diagnostic log is written and nothing is sent. -/
def handleReplyMessage (m : Message) : List Eff :=
  match m.replyTo with
  | some ref =>
      match ref.forwardFrom with
      | some origId => [Eff.send origId m.text]
      | none => []
  | none => []

/-- `handleIncomingMessage`: the router branch for a message from a
non-operator sender.  A blocked sender at the appeal cap gets the
permanent notice with no buttons; a blocked sender under the cap gets
the block notice with the appeal button bound to their id; anyone else
has the message forwarded to the operator. -/
def handleIncomingMessage (db : DBState) (token : String) (creatorID : Int)
    (m : Message) : List Eff :=
  if isUserBlocked db token m.fromId then
    if 3 ≤ getAppealCount db token m.fromId then
      [Eff.send m.fromId permBanIncomingText]
    else
      [Eff.sendWithButtons m.fromId banIncomingText
        [appealDataTag ++ toString m.fromId]]
  else
    [Eff.forward creatorID m.chatId m.messageId]

/-- The Worker-local state of one poll loop: the `appeals` awaiting-text
map (as the set of ids mapped to `true`) plus the shared table. -/
structure WorkerState where
  appeals : List Int
  db : DBState
deriving DecidableEq, Repr

/-- `appeals[uid] = true` on the set model. -/
def idInsert (l : List Int) (u : Int) : List Int :=
  if u ∈ l then l else l ++ [u]

/-- One event pulled from the update channel. -/
inductive Update where
  | message (m : Message)
  | callbackQ (cb : CallbackQ)
deriving DecidableEq, Repr

/-- One iteration of the `for update := range updates` loop in
`startBot`, for the worker of `token` with operator `creatorID`:
consumes the event, returns the next worker state and the effects, in
the exact branch order of the Go code (awaiting-appeal consumption, then
command dispatch — note both the operator and the non-operator command
branches call `handleBotCommands` — then operator reply versus incoming
message; callback queries are acknowledged and branch on their data
tag). -/
def workerStep (token : String) (creatorID : Int) (st : WorkerState)
    (u : Update) : WorkerState × List Eff :=
  match u with
  | Update.message m =>
      let uid := m.fromId
      if uid ∈ st.appeals then
        let e1 := Eff.send creatorID (appealForwardText uid m.text)
        let appeals1 := removeId st.appeals uid
        let db1 := incrementAppealCount st.db token uid
        if 3 ≤ getAppealCount db1 token uid then
          (⟨appeals1, blockUser db1 token uid⟩, [e1, Eff.send uid appealCapText])
        else
          (⟨appeals1, db1⟩, [e1])
      else if m.isCmd = true ∧ m.fromId = creatorID then
        let res := handleBotCommands st.db token creatorID m
        (⟨st.appeals, res.1⟩, res.2)
      else if m.isCmd = true then
        let res := handleBotCommands st.db token creatorID m
        (⟨st.appeals, res.1⟩, res.2)
      else if m.fromId = creatorID then
        (st, handleReplyMessage m)
      else
        (st, handleIncomingMessage st.db token creatorID m)
  | Update.callbackQ cb =>
      let ack := Eff.ackCallback cb.cbId
      if cb.data.startsWith appealDataTag then
        match parseInt64 (cb.data.drop appealDataTag.length) with
        | none => (st, [ack])
        | some uid =>
            if 3 ≤ getAppealCount st.db token uid then
              (st, [ack, Eff.send uid appealCapText])
            else
              (⟨idInsert st.appeals uid, st.db⟩, [ack, Eff.send uid appealPromptText])
      else if cb.data.startsWith banDataTag then
        match parseInt64 (cb.data.drop banDataTag.length) with
        | none => (st, [ack])
        | some uid =>
            (⟨st.appeals, blockUser st.db token uid⟩,
              [ack, Eff.send creatorID (banDoneText uid)])
      else if cb.data.startsWith unbanDataTag then
        match parseInt64 (cb.data.drop unbanDataTag.length) with
        | none => (st, [ack])
        | some uid =>
            (⟨st.appeals, unblockUser st.db token uid⟩,
              [ack, Eff.send creatorID (unbanCbDoneText uid)])
      else (st, [ack])

/-- The manager's in-memory registry plus the table: the `bots` and
`creator` maps (token keyed), the set of spawned workers, and the
database. -/
structure ManagerState where
  bots : List String
  creator : List (String × Int)
  workers : List String
  db : DBState
deriving DecidableEq, Repr

/-- Map-key insertion for the `bots` map (presence is all that is read). -/
def strInsert (l : List String) (t : String) : List String :=
  if t ∈ l then l else t :: l

/-- `m.creator[token] = creatorID`: upsert on the association list. -/
def creatorSet : List (String × Int) → String → Int → List (String × Int)
  | [], t, c => [(t, c)]
  | (t', c') :: rest, t, c =>
      if t' = t then (t, c) :: rest else (t', c') :: creatorSet rest t c

/-- Outcome of `AddBot`. -/
inductive RegisterResult where
  | ok
  | invalidCredential
deriving DecidableEq, Repr

/-- `AddBot`: validate the credential first (`tgbotapi.NewBotAPI`),
returning the error with nothing touched on failure; on success insert
the in-memory map entries, spawn the worker, then check the table and
insert the persisted row only when no row for the token exists. -/
def AddBot (validCredential : Bool) (st : ManagerState) (token : String)
    (creatorID : Int) : ManagerState × RegisterResult :=
  if validCredential then
    let st1 : ManagerState :=
      { st with
        bots := strInsert st.bots token
        creator := creatorSet st.creator token creatorID
        workers := token :: st.workers }
    match dbGet st1.db token with
    | some _ => (st1, RegisterResult.ok)
    | none =>
        ({ st1 with db := st1.db ++ [(token, ⟨creatorID, [], []⟩)] }, RegisterResult.ok)
  else (st, RegisterResult.invalidCredential)

/-- The operations that touch the persisted ban/appeal fields, for the
monotonicity claim about `appealCount`. -/
inductive StoreOp where
  | doBlock (t : String) (u : Int)
  | doUnblock (t : String) (u : Int)
  | doIncrementAppeal (t : String) (u : Int)
  | doDeleteBot (t : String)
  | doAddBot (t : String) (c : Int)
deriving DecidableEq, Repr

def applyStoreOp : StoreOp → DBState → DBState
  | StoreOp.doBlock t u, db => blockUser db t u
  | StoreOp.doUnblock t u, db => unblockUser db t u
  | StoreOp.doIncrementAppeal t u, db => incrementAppealCount db t u
  | StoreOp.doDeleteBot t, db => deleteBotDb db t
  | StoreOp.doAddBot t c, db => addBotDb db t c

/-- A sequence of appeal submissions (each one an
`incrementAppealCount`) against one bot's table row. -/
def applyAppeals (db : DBState) (t : String) : List Int → DBState
  | [] => db
  | u :: rest => applyAppeals (incrementAppealCount db t u) t rest

/-- Events for the lock-scoping analysis: registry lock acquire/release
(read and write mode) and the store/network calls made while a function
runs, in source order. -/
inductive LockEv where
  | lockR
  | unlockR
  | lockW
  | unlockW
  | storeCall
  | netCall
deriving DecidableEq, Repr

/-- Does some store or network call occur while the lock depth is
positive? -/
def callUnderLockAux : Nat → List LockEv → Bool
  | _, [] => false
  | d, LockEv.lockR :: rest => callUnderLockAux (d + 1) rest
  | d, LockEv.lockW :: rest => callUnderLockAux (d + 1) rest
  | d, LockEv.unlockR :: rest => callUnderLockAux (d - 1) rest
  | d, LockEv.unlockW :: rest => callUnderLockAux (d - 1) rest
  | d, LockEv.storeCall :: rest => decide (0 < d) || callUnderLockAux d rest
  | d, LockEv.netCall :: rest => decide (0 < d) || callUnderLockAux d rest

def callUnderLock (tr : List LockEv) : Bool :=
  callUnderLockAux 0 tr

/-- `AddBot` in source order: credential validation (network), the map
mutation under the write lock, then the existence query and — for a new
token — the insert, both after the unlock. -/
def addBotLockTrace (alreadyExists : Bool) : List LockEv :=
  [LockEv.netCall, LockEv.lockW, LockEv.unlockW, LockEv.storeCall] ++
    (if alreadyExists then [] else [LockEv.storeCall])

/-- `DeleteBot` in source order: the write lock is taken with a deferred
unlock, so the `DELETE` against the store runs while it is held. -/
def deleteBotLockTrace : List LockEv :=
  [LockEv.lockW, LockEv.storeCall, LockEv.unlockW]

/-- `handleIncomingMessage` in source order: the read lock is taken with
a deferred unlock, so the `isUserBlocked` read, the appeal-count read in
the blocked branch, and the send/forward all run while it is held. -/
def handleIncomingLockTrace (blocked : Bool) : List LockEv :=
  if blocked then
    [LockEv.lockR, LockEv.storeCall, LockEv.storeCall, LockEv.netCall, LockEv.unlockR]
  else
    [LockEv.lockR, LockEv.storeCall, LockEv.netCall, LockEv.unlockR]

/-! Concrete inputs used by the witnesses and counterexamples. -/

def tokT : String := "T"

/-- A fresh row: creator 100, nobody blocked, no appeal counts. -/
def recEmpty : BotRecord := ⟨100, [], []⟩

def dbOneRow : DBState := [(tokT, recEmpty)]

/-- User 42 blocked with one appeal on record. -/
def recBlocked42 : BotRecord := ⟨100, [42], [(42, 1)]⟩

def dbBlocked42 : DBState := [(tokT, recBlocked42)]

/-- User 42 not blocked (empty blocked list) but with a nonzero appeal
count — reachable: block 42, arm the appeal prompt, unban 42 (list
empties, count resets), then 42 submits the pending appeal text
(count becomes 1). -/
def recCounts42 : BotRecord := ⟨100, [], [(42, 1)]⟩

def dbCounts42 : DBState := [(tokT, recCounts42)]

/-- A plain (non-command) message from user 42. -/
def mC1 : Message :=
  { fromId := 42, chatId := 42, messageId := 7, userName := "", firstName := "a",
    lastName := "b", text := "hello", isCmd := false, cmd := "", cmdArgs := "",
    replyTo := none }

def wsC1 : WorkerState := ⟨[], dbBlocked42⟩

/-- The appeal text message from user 42. -/
def mC3 : Message :=
  { fromId := 42, chatId := 42, messageId := 8, userName := "", firstName := "a",
    lastName := "b", text := "please", isCmd := false, cmd := "", cmdArgs := "",
    replyTo := none }

/-- Worker awaiting 42's appeal text while the bot's row is gone from the
table (reachable: `deletebot` ran while the worker kept polling). -/
def wsC3gone : WorkerState := ⟨[42], []⟩

def wsC3 : WorkerState := ⟨[42], dbBlocked42⟩

/-- A `/ban 42` command message from user 999, who is not the operator
(the operator is 100). -/
def mC4 : Message :=
  { fromId := 999, chatId := 999, messageId := 9, userName := "", firstName := "x",
    lastName := "y", text := "/ban 42", isCmd := true, cmd := "ban", cmdArgs := "42",
    replyTo := none }

def wsC4 : WorkerState := ⟨[], dbOneRow⟩

/-- An operator reply whose replied-to message carries forwarding
metadata pointing at user 42. -/
def mC8 : Message :=
  { fromId := 100, chatId := 100, messageId := 10, userName := "", firstName := "o",
    lastName := "p", text := "hi", isCmd := false, cmd := "", cmdArgs := "",
    replyTo := some ⟨some 42⟩ }

def stC6 : ManagerState := ⟨[], [], [], dbOneRow⟩

/-! Helper lemmas about the table and the parsed columns. -/

theorem dbGet_dbSet (db : DBState) (t' t : String) (r' : BotRecord) :
    dbGet (dbSet db t' r') t =
      if t' = t then (dbGet db t).map (fun _ => r') else dbGet db t := by
  induction db with
  | nil => simp [dbGet, dbSet]
  | cons hd tl ih =>
      obtain ⟨a, b⟩ := hd
      by_cases hat : a = t'
      · subst hat
        by_cases htt : a = t
        · subst htt
          simp [dbGet, dbSet]
        · simp [dbGet, dbSet, htt, ih]
      · by_cases hbt : a = t
        · subst hbt
          have h2 : ¬ t' = a := fun h => hat h.symm
          simp [dbGet, dbSet, hat, h2]
        · simp [dbGet, dbSet, hat, hbt, ih]

theorem dbGet_dbDelete (db : DBState) (t' t : String) :
    dbGet (dbDelete db t') t = if t' = t then none else dbGet db t := by
  induction db with
  | nil => simp [dbGet, dbDelete]
  | cons hd tl ih =>
      obtain ⟨a, b⟩ := hd
      by_cases hat : a = t'
      · subst hat
        by_cases htt : a = t
        · subst htt
          simp [dbGet, dbDelete, ih]
        · simp [dbGet, dbDelete, htt, ih]
      · by_cases hbt : a = t
        · subst hbt
          have h2 : ¬ t' = a := fun h => hat h.symm
          simp [dbGet, dbDelete, hat, h2]
        · simp [dbGet, dbDelete, hat, hbt, ih]

theorem dbGet_append_of_some (db l : DBState) (t : String) (r : BotRecord)
    (h : dbGet db t = some r) : dbGet (db ++ l) t = some r := by
  induction db with
  | nil => simp [dbGet] at h
  | cons hd tl ih =>
      obtain ⟨a, b⟩ := hd
      by_cases hat : a = t
      · simp [dbGet, hat] at h ⊢
        exact h
      · simp [dbGet, hat] at h ⊢
        exact ih h

theorem dbGet_append_of_none (db l : DBState) (t : String)
    (h : dbGet db t = none) : dbGet (db ++ l) t = dbGet l t := by
  induction db with
  | nil => simp [dbGet]
  | cons hd tl ih =>
      obtain ⟨a, b⟩ := hd
      by_cases hat : a = t
      · simp [dbGet, hat] at h
      · simp [dbGet, hat] at h ⊢
        exact ih h

theorem countsGet_countsIncr (m : List (Int × Nat)) (u' u : Int) :
    countsGet (countsIncr m u') u =
      if u' = u then countsGet m u + 1 else countsGet m u := by
  induction m with
  | nil => by_cases h : u' = u <;> simp [countsGet, countsIncr, h]
  | cons hd tl ih =>
      obtain ⟨a, c⟩ := hd
      by_cases hau : a = u'
      · subst hau
        by_cases huu : a = u
        · subst huu
          simp [countsGet, countsIncr]
        · have h2 : ¬ a = u := huu
          simp [countsGet, countsIncr, h2]
      · by_cases hau2 : a = u
        · subst hau2
          have h2 : ¬ u' = a := fun h => hau h.symm
          simp [countsGet, countsIncr, hau, h2]
        · simp [countsGet, countsIncr, hau, hau2, ih]

theorem countsGet_countsDel (m : List (Int × Nat)) (u' u : Int) :
    countsGet (countsDel m u') u = if u' = u then 0 else countsGet m u := by
  induction m with
  | nil => by_cases h : u' = u <;> simp [countsGet, countsDel, h]
  | cons hd tl ih =>
      obtain ⟨a, c⟩ := hd
      by_cases hau : a = u'
      · subst hau
        by_cases huu : a = u
        · subst huu
          simp [countsGet, countsDel, ih]
        · simp [countsGet, countsDel, huu, ih]
      · by_cases hau2 : a = u
        · subst hau2
          have h2 : ¬ u' = a := fun h => hau h.symm
          simp [countsGet, countsDel, hau, h2]
        · simp [countsGet, countsDel, hau, hau2, ih]

theorem mem_removeId (l : List Int) (u x : Int) :
    x ∈ removeId l u ↔ x ∈ l ∧ x ≠ u := by
  induction l with
  | nil => simp [removeId]
  | cons a tl ih =>
      simp only [removeId]
      by_cases hau : a = u
      · rw [if_pos hau, ih, List.mem_cons]
        subst hau
        constructor
        · exact fun h => ⟨Or.inr h.1, h.2⟩
        · rintro ⟨hx | hx, hne⟩
          · exact absurd hx hne
          · exact ⟨hx, hne⟩
      · rw [if_neg hau, List.mem_cons, List.mem_cons, ih]
        constructor
        · rintro (rfl | hx)
          · exact ⟨Or.inl rfl, hau⟩
          · exact ⟨Or.inr hx.1, hx.2⟩
        · rintro ⟨rfl | hx, hne⟩
          · exact Or.inl rfl
          · exact Or.inr ⟨hx, hne⟩

theorem getAppealCount_of_some (db : DBState) (t : String) (u : Int)
    (r : BotRecord) (h : dbGet db t = some r) :
    getAppealCount db t u = countsGet r.appealCounts u := by
  simp [getAppealCount, scan, getAppealCountScan, h]

theorem getAppealCount_of_none (db : DBState) (t : String) (u : Int)
    (h : dbGet db t = none) : getAppealCount db t u = 0 := by
  simp [getAppealCount, scan, getAppealCountScan, h]

theorem isUserBlocked_of_some (db : DBState) (t : String) (u : Int)
    (r : BotRecord) (h : dbGet db t = some r) :
    isUserBlocked db t u = decide (u ∈ r.blockedUsers) := by
  simp [isUserBlocked, scan, isUserBlockedScan, h]

theorem isUserBlocked_of_none (db : DBState) (t : String) (u : Int)
    (h : dbGet db t = none) : isUserBlocked db t u = false := by
  simp [isUserBlocked, scan, isUserBlockedScan, h]

theorem blockUser_of_none (db : DBState) (t : String) (u : Int)
    (h : dbGet db t = none) : blockUser db t u = db := by
  simp [blockUser, h]

theorem incrementAppealCount_of_none (db : DBState) (t : String) (u : Int)
    (h : dbGet db t = none) : incrementAppealCount db t u = db := by
  simp [incrementAppealCount, h]

theorem unblockUser_of_none (db : DBState) (t : String) (u : Int)
    (h : dbGet db t = none) : unblockUser db t u = db := by
  simp [unblockUser, h]

theorem unblockUser_of_empty (db : DBState) (t : String) (u : Int) (r : BotRecord)
    (h : dbGet db t = some r) (he : r.blockedUsers = []) :
    unblockUser db t u = db := by
  simp [unblockUser, h, he]

theorem getAppealCount_dbSet_of_some (db : DBState) (t' t : String) (u : Int)
    (r r2 : BotRecord) (h : dbGet db t' = some r)
    (hc : r2.appealCounts = r.appealCounts) :
    getAppealCount (dbSet db t' r2) t u = getAppealCount db t u := by
  by_cases htt : t' = t
  · subst htt
    have h2 : dbGet (dbSet db t' r2) t' = some r2 := by
      rw [dbGet_dbSet, if_pos rfl, h]
      rfl
    rw [getAppealCount_of_some _ _ _ _ h2, getAppealCount_of_some _ _ _ _ h, hc]
  · have h2 : dbGet (dbSet db t' r2) t = dbGet db t := by
      rw [dbGet_dbSet, if_neg htt]
    unfold getAppealCount scan
    rw [h2]

theorem dbGet_incrementAppealCount_self (db : DBState) (t : String) (u : Int)
    (r : BotRecord) (h : dbGet db t = some r) :
    dbGet (incrementAppealCount db t u) t =
      some ⟨r.creatorId, r.blockedUsers, countsIncr r.appealCounts u⟩ := by
  simp only [incrementAppealCount, h]
  rw [dbGet_dbSet, if_pos rfl, h]
  rfl

theorem getAppealCount_incr_self (db : DBState) (t : String) (u : Int)
    (r : BotRecord) (h : dbGet db t = some r) :
    getAppealCount (incrementAppealCount db t u) t u =
      getAppealCount db t u + 1 := by
  rw [getAppealCount_of_some _ _ _ _ (dbGet_incrementAppealCount_self db t u r h),
    getAppealCount_of_some _ _ _ _ h]
  simp [countsGet_countsIncr]

theorem getAppealCount_incr_le (db : DBState) (t' : String) (u' : Int)
    (t : String) (u : Int) :
    getAppealCount db t u ≤ getAppealCount (incrementAppealCount db t' u') t u := by
  cases h : dbGet db t' with
  | none => rw [incrementAppealCount_of_none _ _ _ h]
  | some r =>
      by_cases htt : t' = t
      · subst htt
        have h2 := dbGet_incrementAppealCount_self db t' u' r h
        rw [getAppealCount_of_some _ _ _ _ h2, getAppealCount_of_some _ _ _ _ h]
        rw [countsGet_countsIncr]
        by_cases huu : u' = u
        · simp [huu]
        · simp [huu]
      · have h2 : getAppealCount (incrementAppealCount db t' u') t u =
            getAppealCount db t u := by
          simp only [incrementAppealCount, h]
          unfold getAppealCount scan
          rw [dbGet_dbSet, if_neg htt]
        rw [h2]

theorem dbGet_blockUser_self (db : DBState) (t : String) (u : Int)
    (r : BotRecord) (h : dbGet db t = some r) :
    ∃ l, dbGet (blockUser db t u) t = some ⟨r.creatorId, l, r.appealCounts⟩ ∧
      u ∈ l := by
  by_cases hmem : u ∈ r.blockedUsers
  · refine ⟨r.blockedUsers, ?_, hmem⟩
    simp only [blockUser, h, if_pos hmem]
  · refine ⟨r.blockedUsers ++ [u], ?_, by simp⟩
    simp only [blockUser, h, if_neg hmem]
    rw [dbGet_dbSet, if_pos rfl, h]
    rfl

theorem getAppealCount_blockUser (db : DBState) (t' : String) (u' : Int)
    (t : String) (u : Int) :
    getAppealCount (blockUser db t' u') t u = getAppealCount db t u := by
  cases h : dbGet db t' with
  | none => rw [blockUser_of_none _ _ _ h]
  | some r =>
      by_cases hmem : u' ∈ r.blockedUsers
      · simp [blockUser, h, hmem]
      · simp only [blockUser, h, if_neg hmem]
        exact getAppealCount_dbSet_of_some db t' t u r _ h rfl

theorem dbGet_unblockUser_self (db : DBState) (t : String) (u : Int)
    (r : BotRecord) (h : dbGet db t = some r) (hne : r.blockedUsers ≠ []) :
    dbGet (unblockUser db t u) t =
      some ⟨r.creatorId, removeId r.blockedUsers u, countsDel r.appealCounts u⟩ := by
  simp only [unblockUser, h, if_neg hne]
  have h1 : dbGet (dbSet db t { r with blockedUsers := removeId r.blockedUsers u }) t
      = some { r with blockedUsers := removeId r.blockedUsers u } := by
    rw [dbGet_dbSet, if_pos rfl, h]
    rfl
  simp only [h1]
  rw [dbGet_dbSet, if_pos rfl, h1]
  rfl

theorem dbGet_unblockUser_ne (db : DBState) (t : String) (u : Int)
    (t2 : String) (htt : ¬ t = t2) :
    dbGet (unblockUser db t u) t2 = dbGet db t2 := by
  cases h : dbGet db t with
  | none => rw [unblockUser_of_none _ _ _ h]
  | some r =>
      by_cases he : r.blockedUsers = []
      · rw [unblockUser_of_empty _ _ _ _ h he]
      · simp only [unblockUser, h, if_neg he]
        have h1 : dbGet (dbSet db t { r with blockedUsers := removeId r.blockedUsers u }) t
            = some { r with blockedUsers := removeId r.blockedUsers u } := by
          rw [dbGet_dbSet, if_pos rfl, h]
          rfl
        simp only [h1]
        rw [dbGet_dbSet, if_neg htt, dbGet_dbSet, if_neg htt]

theorem unblock_count_cases (db : DBState) (t' : String) (u' : Int)
    (t : String) (u : Int) :
    getAppealCount (unblockUser db t' u') t u = getAppealCount db t u ∨
      (t' = t ∧ u' = u ∧ getAppealCount (unblockUser db t' u') t u = 0) := by
  by_cases htt : t' = t
  · subst htt
    cases h : dbGet db t' with
    | none =>
        left
        rw [unblockUser_of_none _ _ _ h]
    | some r =>
        by_cases he : r.blockedUsers = []
        · left
          rw [unblockUser_of_empty _ _ _ _ h he]
        · have hs := dbGet_unblockUser_self db t' u' r h he
          rw [getAppealCount_of_some _ _ _ _ hs, getAppealCount_of_some _ _ _ _ h]
          rw [countsGet_countsDel]
          by_cases huu : u' = u
          · right
            exact ⟨rfl, huu, by simp [huu]⟩
          · left
            simp [huu]
  · left
    have h2 := dbGet_unblockUser_ne db t' u' t htt
    unfold getAppealCount scan
    rw [h2]

theorem getAppealCount_deleteBot_self (db : DBState) (t : String) (u : Int) :
    getAppealCount (deleteBotDb db t) t u = 0 := by
  apply getAppealCount_of_none
  unfold deleteBotDb
  rw [dbGet_dbDelete, if_pos rfl]

theorem getAppealCount_deleteBot_ne (db : DBState) (t' t : String) (u : Int)
    (htt : ¬ t' = t) :
    getAppealCount (deleteBotDb db t') t u = getAppealCount db t u := by
  unfold getAppealCount scan deleteBotDb
  rw [dbGet_dbDelete, if_neg htt]

theorem getAppealCount_addBot (db : DBState) (t' : String) (c : Int)
    (t : String) (u : Int) :
    getAppealCount (addBotDb db t' c) t u = getAppealCount db t u := by
  cases h : dbGet db t' with
  | some r => simp [addBotDb, h]
  | none =>
      simp only [addBotDb, h]
      cases h2 : dbGet db t with
      | some r2 =>
          rw [getAppealCount_of_some _ _ _ _ (dbGet_append_of_some db _ t r2 h2),
            getAppealCount_of_some _ _ _ _ h2]
      | none =>
          rw [getAppealCount_of_none _ _ _ h2]
          have h3 : dbGet (db ++ [(t', (⟨c, [], []⟩ : BotRecord))]) t =
              dbGet [(t', (⟨c, [], []⟩ : BotRecord))] t :=
            dbGet_append_of_none db _ t h2
          by_cases htt : t' = t
          · subst htt
            have h4 : dbGet (db ++ [(t', (⟨c, [], []⟩ : BotRecord))]) t' =
                some (⟨c, [], []⟩ : BotRecord) := by
              rw [h3]
              simp [dbGet]
            rw [getAppealCount_of_some _ _ _ _ h4]
            rfl
          · rw [getAppealCount_of_none _ _ _ (by rw [h3]; simp [dbGet, htt])]

theorem applyAppeals_of_none (db : DBState) (t : String) (l : List Int)
    (h : dbGet db t = none) : applyAppeals db t l = db := by
  induction l with
  | nil => rfl
  | cons a rest ih =>
      show applyAppeals (incrementAppealCount db t a) t rest = db
      rw [incrementAppealCount_of_none _ _ _ h]
      exact ih

theorem applyAppeals_preserves (db : DBState) (t : String) (l : List Int)
    (r : BotRecord) (h : dbGet db t = some r) :
    ∃ counts2, dbGet (applyAppeals db t l) t =
      some ⟨r.creatorId, r.blockedUsers, counts2⟩ := by
  induction l generalizing db r with
  | nil => exact ⟨r.appealCounts, h⟩
  | cons a rest ih =>
      show ∃ counts2, dbGet (applyAppeals (incrementAppealCount db t a) t rest) t =
        some ⟨r.creatorId, r.blockedUsers, counts2⟩
      exact ih (incrementAppealCount db t a)
        ⟨r.creatorId, r.blockedUsers, countsIncr r.appealCounts a⟩
        (dbGet_incrementAppealCount_self db t a r h)

theorem workerStep_incoming (token : String) (creatorID : Int) (st : WorkerState)
    (m : Message) (hap : m.fromId ∉ st.appeals) (hcmd : m.isCmd = false)
    (hop : ¬ m.fromId = creatorID) :
    workerStep token creatorID st (Update.message m) =
      (st, handleIncomingMessage st.db token creatorID m) := by
  simp only [workerStep]
  rw [if_neg hap]
  rw [if_neg (fun h => Bool.false_ne_true (hcmd ▸ h.1))]
  rw [if_neg (fun h => Bool.false_ne_true (hcmd ▸ h))]
  rw [if_neg hop]

theorem workerStep_appeal (token : String) (creatorID : Int) (st : WorkerState)
    (m : Message) (hap : m.fromId ∈ st.appeals) :
    workerStep token creatorID st (Update.message m) =
      (if 3 ≤ getAppealCount (incrementAppealCount st.db token m.fromId) token m.fromId
        then
          (⟨removeId st.appeals m.fromId,
              blockUser (incrementAppealCount st.db token m.fromId) token m.fromId⟩,
            [Eff.send creatorID (appealForwardText m.fromId m.text),
              Eff.send m.fromId appealCapText])
        else
          (⟨removeId st.appeals m.fromId, incrementAppealCount st.db token m.fromId⟩,
            [Eff.send creatorID (appealForwardText m.fromId m.text)])) := by
  simp only [workerStep]
  rw [if_pos hap]

/-- C1: for a message from a non-operator sender (no pending appeal
flag, not a command), when the sender is blocked and their appeal count
is at least 3 the router sends only the permanent-block notice with no
buttons; when blocked and under 3 it sends only the block notice with
the appeal button bound to the sender's id; and in neither case does a
forward reach the operator.  Worker state is unchanged in both cases. -/
theorem c1_blocked_user_routing (token : String) (creatorID : Int)
    (st : WorkerState) (m : Message) (hap : m.fromId ∉ st.appeals)
    (hcmd : m.isCmd = false) (hop : ¬ m.fromId = creatorID)
    (hb : isUserBlocked st.db token m.fromId = true) :
    (3 ≤ getAppealCount st.db token m.fromId →
      workerStep token creatorID st (Update.message m) =
        (st, [Eff.send m.fromId permBanIncomingText])) ∧
    (getAppealCount st.db token m.fromId < 3 →
      workerStep token creatorID st (Update.message m) =
        (st, [Eff.sendWithButtons m.fromId banIncomingText
          [appealDataTag ++ toString m.fromId]])) ∧
    ∀ a b c, Eff.forward a b c ∉ (workerStep token creatorID st (Update.message m)).2 := by
  have hstep := workerStep_incoming token creatorID st m hap hcmd hop
  refine ⟨?_, ?_, ?_⟩
  · intro h3
    rw [hstep]
    simp [handleIncomingMessage, hb, h3]
  · intro h3
    rw [hstep]
    simp [handleIncomingMessage, hb, Nat.not_le.mpr h3]
  · intro a b c
    rw [hstep]
    simp only [handleIncomingMessage, hb]
    split
    · split <;> simp
    · simp_all

/-- Closed instance of the under-cap branch of the routing theorem: user
42 is blocked with one recorded appeal, so the worker answers with the
block notice carrying the appeal button for id 42 and changes nothing
else. -/
theorem c1_blocked_user_routing_witness :
    workerStep tokT 100 wsC1 (Update.message mC1) =
      (wsC1, [Eff.sendWithButtons 42 banIncomingText
        [appealDataTag ++ toString (42 : Int)]]) :=
  (c1_blocked_user_routing tokT 100 wsC1 mC1 (by decide) (by decide) (by decide)
    (by decide)).2.1 (by decide)

/-- C2: blocking a user, then any number of appeal submissions against
the same bot, then unblocking that user, leaves the appeal count at 0
and the user unblocked (the block guarantees a nonempty blocked list, so
the unblock takes the full reset path). -/
theorem c2_unblock_resets (db : DBState) (token : String) (u : Int)
    (l : List Int) :
    getAppealCount
        (unblockUser (applyAppeals (blockUser db token u) token l) token u)
        token u = 0 ∧
    isUserBlocked
        (unblockUser (applyAppeals (blockUser db token u) token l) token u)
        token u = false := by
  cases h : dbGet db token with
  | none =>
      rw [blockUser_of_none _ _ _ h, applyAppeals_of_none _ _ _ h,
        unblockUser_of_none _ _ _ h]
      exact ⟨getAppealCount_of_none _ _ _ h, isUserBlocked_of_none _ _ _ h⟩
  | some r =>
      obtain ⟨bl, hbl, hmem⟩ := dbGet_blockUser_self db token u r h
      obtain ⟨c2, h2⟩ := applyAppeals_preserves (blockUser db token u) token l _ hbl
      have hs := dbGet_unblockUser_self _ token u _ h2 (List.ne_nil_of_mem hmem)
      constructor
      · rw [getAppealCount_of_some _ _ _ _ hs]
        simp [countsGet_countsDel]
      · rw [isUserBlocked_of_some _ _ _ _ hs]
        simp [mem_removeId]

/-- C3 (amended): when a user's awaiting-appeal flag is set and the
bot's row still exists in the table, the next message from that user is
consumed as the appeal text: the appeal is sent to the operator first,
the appeal count rises by exactly 1, the flag is cleared, and the only
effects are that appeal notification and possibly the cap notice — in
particular nothing is forwarded, so the message is not treated as a
command, relay or reply. -/
theorem c3_appeal_consumption (token : String) (creatorID : Int)
    (st : WorkerState) (m : Message) (hap : m.fromId ∈ st.appeals)
    (r : BotRecord) (hr : dbGet st.db token = some r) :
    (workerStep token creatorID st (Update.message m)).2.head? =
      some (Eff.send creatorID (appealForwardText m.fromId m.text)) ∧
    getAppealCount (workerStep token creatorID st (Update.message m)).1.db
        token m.fromId = getAppealCount st.db token m.fromId + 1 ∧
    m.fromId ∉ (workerStep token creatorID st (Update.message m)).1.appeals ∧
    (∀ e ∈ (workerStep token creatorID st (Update.message m)).2,
      e = Eff.send creatorID (appealForwardText m.fromId m.text) ∨
        e = Eff.send m.fromId appealCapText) ∧
    ∀ a b c, Eff.forward a b c ∉ (workerStep token creatorID st (Update.message m)).2 := by
  have hstep := workerStep_appeal token creatorID st m hap
  by_cases h3 : 3 ≤ getAppealCount (incrementAppealCount st.db token m.fromId)
      token m.fromId
  · rw [hstep, if_pos h3]
    refine ⟨rfl, ?_, ?_, ?_, ?_⟩
    · rw [getAppealCount_blockUser]
      exact getAppealCount_incr_self st.db token m.fromId r hr
    · simp [mem_removeId]
    · intro e he
      simpa using he
    · intro a b c
      simp
  · rw [hstep, if_neg h3]
    refine ⟨rfl, ?_, ?_, ?_, ?_⟩
    · exact getAppealCount_incr_self st.db token m.fromId r hr
    · simp [mem_removeId]
    · intro e he
      simp at he
      exact Or.inl he
    · intro a b c
      simp

/-- Closed instance of the appeal-consumption theorem: user 42's pending
appeal text raises their count from 1 to 2. -/
theorem c3_appeal_consumption_witness :
    getAppealCount (workerStep tokT 100 wsC3 (Update.message mC3)).1.db tokT 42 =
      getAppealCount wsC3.db tokT 42 + 1 :=
  (c3_appeal_consumption tokT 100 wsC3 mC3 (by decide) recBlocked42 (by decide)).2.1

/-- C3 counterexample to the unconditional claim: with the bot's row
gone from the table (as after `deletebot`, while the worker keeps
polling), the pending appeal text is consumed but the count stays 0 —
the `UPDATE` matches no row and reports no error — so it is not
incremented by 1. -/
theorem c3_counterexample :
    ¬ (getAppealCount (workerStep tokT 100 wsC3gone (Update.message mC3)).1.db
          tokT 42 = getAppealCount wsC3gone.db tokT 42 + 1) := by
  decide

/-- C4 (code bug): a `/ban 42` command from user 999, who is not the
operator (100), still reaches `handleBotCommands` — the operator and
non-operator command branches of the dispatch are identical — so user 42
ends up blocked and the confirmation is sent to the operator. -/
theorem c4_nonoperator_ban_executes :
    isUserBlocked (workerStep tokT 100 wsC4 (Update.message mC4)).1.db tokT 42 = true ∧
    Eff.send 100 (banDoneText 42) ∈ (workerStep tokT 100 wsC4 (Update.message mC4)).2 := by
  decide

/-- C5: when credential validation fails, `AddBot` returns the error and
creates no state at all — the bots map, the creator map, the spawned
workers and the persisted table are all exactly as before. -/
theorem c5_invalid_credential_clean (st : ManagerState) (token : String)
    (creatorID : Int) :
    (AddBot false st token creatorID).2 = RegisterResult.invalidCredential ∧
    (AddBot false st token creatorID).1.bots = st.bots ∧
    (AddBot false st token creatorID).1.creator = st.creator ∧
    (AddBot false st token creatorID).1.workers = st.workers ∧
    (AddBot false st token creatorID).1.db = st.db :=
  ⟨rfl, rfl, rfl, rfl, rfl⟩

/-- C6: registering a token whose row already exists succeeds, leaves
the persisted table (hence the stored creator id and fields) unchanged,
and still spawns a worker for the token. -/
theorem c6_idempotent_registration (st : ManagerState) (token : String)
    (creatorID : Int) (r : BotRecord) (h : dbGet st.db token = some r) :
    (AddBot true st token creatorID).2 = RegisterResult.ok ∧
    (AddBot true st token creatorID).1.db = st.db ∧
    token ∈ (AddBot true st token creatorID).1.workers := by
  refine ⟨?_, ?_, ?_⟩ <;> simp [AddBot, h]

/-- Closed instance of idempotent registration on a one-row table. -/
theorem c6_idempotent_registration_witness :
    (AddBot true stC6 tokT 100).2 = RegisterResult.ok ∧
    (AddBot true stC6 tokT 100).1.db = stC6.db ∧
    tokT ∈ (AddBot true stC6 tokT 100).1.workers :=
  c6_idempotent_registration stC6 tokT 100 recEmpty (by decide)

/-- C7 (amended): across the store operations, any drop of a user's
appeal count comes from `Unblock` of that very user or from `DeleteBot`
of the bot, and in both cases the count lands at 0; `DeleteBot` always
zeroes it, and `Unblock` zeroes it whenever the bot's blocked list is
nonempty (on an empty list it returns early and leaves the count
alone — see the counterexample). -/
theorem c7_appeal_count_monotone (op : StoreOp) (db : DBState) (t : String)
    (u : Int) :
    (getAppealCount (applyStoreOp op db) t u < getAppealCount db t u →
      (op = StoreOp.doUnblock t u ∨ op = StoreOp.doDeleteBot t) ∧
      getAppealCount (applyStoreOp op db) t u = 0) ∧
    (∀ r, dbGet db t = some r → r.blockedUsers ≠ [] →
      getAppealCount (unblockUser db t u) t u = 0) ∧
    getAppealCount (deleteBotDb db t) t u = 0 := by
  refine ⟨?_, ?_, getAppealCount_deleteBot_self db t u⟩
  · intro hdec
    cases op with
    | doBlock t' u' =>
        rw [applyStoreOp, getAppealCount_blockUser] at hdec
        exact absurd hdec (lt_irrefl _)
    | doUnblock t' u' =>
        simp only [applyStoreOp] at hdec ⊢
        rcases unblock_count_cases db t' u' t u with hcase | ⟨h1, h2, h3⟩
        · rw [hcase] at hdec
          exact absurd hdec (lt_irrefl _)
        · subst h1
          subst h2
          exact ⟨Or.inl rfl, h3⟩
    | doIncrementAppeal t' u' =>
        simp only [applyStoreOp] at hdec
        exact absurd hdec (not_lt.mpr (getAppealCount_incr_le db t' u' t u))
    | doDeleteBot t' =>
        simp only [applyStoreOp] at hdec ⊢
        by_cases htt : t' = t
        · subst htt
          exact ⟨Or.inr rfl, getAppealCount_deleteBot_self db t' u⟩
        · rw [getAppealCount_deleteBot_ne db t' t u htt] at hdec
          exact absurd hdec (lt_irrefl _)
    | doAddBot t' c =>
        simp only [applyStoreOp] at hdec
        rw [getAppealCount_addBot] at hdec
        exact absurd hdec (lt_irrefl _)
  · intro r hr hne
    rw [getAppealCount_of_some _ _ _ _ (dbGet_unblockUser_self db t u r hr hne)]
    simp [countsGet_countsDel]

/-- Closed instance of the decrease analysis: deleting bot `T` drops
user 42's count from 1 to 0, and the analysis names `DeleteBot` and a
final count of 0. -/
theorem c7_appeal_count_monotone_witness :
    (StoreOp.doDeleteBot tokT = StoreOp.doUnblock tokT 42 ∨
      StoreOp.doDeleteBot tokT = StoreOp.doDeleteBot tokT) ∧
    getAppealCount (applyStoreOp (StoreOp.doDeleteBot tokT) dbCounts42) tokT 42 = 0 :=
  (c7_appeal_count_monotone (StoreOp.doDeleteBot tokT) dbCounts42 tokT 42).1
    (by decide)

/-- C7 counterexample to "Unblock always resets the count to 0": with
user 42 unblocked (empty blocked list) but a recorded count of 1 — a
reachable state, see `recCounts42` — `unblockUser` returns early on the
empty list and the count stays 1. -/
theorem c7_counterexample :
    ¬ (getAppealCount (applyStoreOp (StoreOp.doUnblock tokT 42) dbCounts42)
          tokT 42 = 0) := by
  decide

/-- C8: an operator reply whose replied-to message carries forwarding
metadata delivers exactly the reply text to the original sender from
that metadata; a reply without forwarding metadata produces no effect at
all (only the diagnostic log). -/
theorem c8_reply_routing (m : Message) :
    (∀ ref orig, m.replyTo = some ref → ref.forwardFrom = some orig →
      handleReplyMessage m = [Eff.send orig m.text]) ∧
    ((m.replyTo = none ∨ ∃ ref, m.replyTo = some ref ∧ ref.forwardFrom = none) →
      handleReplyMessage m = []) := by
  constructor
  · intro ref orig h1 h2
    simp [handleReplyMessage, h1, h2]
  · rintro (h1 | ⟨ref, h1, h2⟩)
    · simp [handleReplyMessage, h1]
    · simp [handleReplyMessage, h1, h2]

/-- Closed instance of reply routing: the operator's "hi" on a message
forwarded from user 42 goes to user 42. -/
theorem c8_reply_routing_witness :
    handleReplyMessage mC8 = [Eff.send 42 mC8.text] :=
  (c8_reply_routing mC8).1 ⟨some 42⟩ 42 rfl rfl

/-- C9 (amended): in the lock traces taken from source order, `AddBot`
holds no lock across any store or network call, but `DeleteBot` holds
the write lock across the store delete and `handleIncomingMessage`
holds the read lock across its store reads and its send or forward, in
every branch. -/
theorem c9_lock_scoping (addExists incomingBlocked : Bool) :
    callUnderLock (addBotLockTrace addExists) = false ∧
    callUnderLock deleteBotLockTrace = true ∧
    callUnderLock (handleIncomingLockTrace incomingBlocked) = true := by
  cases addExists <;> cases incomingBlocked <;> decide

/-- C9 counterexample to "no operation holds the registry lock across a
network or storage call": `DeleteBot`'s trace performs its store call
under the write lock. -/
theorem c9_counterexample : ¬ callUnderLock deleteBotLockTrace = false := by
  decide

/-- C10: a successful row read reports a listed user as blocked, but
when the underlying read fails with an error other than no-rows, the
checks fail open: `isUserBlocked` returns `false` and `getAppealCount`
returns 0, with no error surfaced (both return plain values). -/
theorem c10_fail_open (r : BotRecord) (u : Int) (hb : u ∈ r.blockedUsers) :
    isUserBlockedScan (ScanResult.found r) u = true ∧
    isUserBlockedScan ScanResult.dbError u = false ∧
    getAppealCountScan ScanResult.dbError u = 0 :=
  ⟨by simp [isUserBlockedScan, hb], rfl, rfl⟩

/-- Closed instance of fail-open: user 42 is blocked in the record, yet
a failing read reports unblocked and count 0. -/
theorem c10_fail_open_witness :
    isUserBlockedScan (ScanResult.found recBlocked42) 42 = true ∧
    isUserBlockedScan ScanResult.dbError 42 = false ∧
    getAppealCountScan ScanResult.dbError 42 = 0 :=
  c10_fail_open recBlocked42 42 (by decide)

end ForwardMe
